import Mathlib

/-!
Verification of the DicomImporter pipeline specification against the code.

The development shallowly embeds the program:
* byte strings are `List Nat` (one entry per byte),
* DICOM datasets and Python dictionaries are ordered association lists
  `List (String × Value)` with Python `setattr` / dict-update semantics,
* the filesystem seen by `import_dicom` maps a path to a `FileState`
  (missing, readable content, or a read that raises),
* the directory tree walked by the caching pass is a rose tree `FsTree`,
* fallible operations return `Except` values; caught exceptions become
  ordinary return values exactly where the source catches them.

Functions of `src/dicom_engine.py` (`import_dicom`, `export_dicom`,
`get_metadata`, `get_pixel_data`, `list_all_tags`,
`create_dicom_from_array`) are translated from that source.  The engine
used by `src/main.py` (`cache_files`, `send_to_folder`, `send_to_pacs`,
`cleanup`, and the signature check `isValidContainer`) is called there
but its implementation is not part of the provided sources; those
operations are modelled from the specification, and each such definition
says so in its doc comment.
-/

/-- Heterogeneous attribute values of a DICOM dataset or Python dict:
strings, integers, raw byte strings, and Python None. -/
inductive Value where
  | str (s : String)
  | nat (n : Nat)
  | bytes (b : List Nat)
  | null
deriving DecidableEq

/-- A DICOM dataset (or a Python dict), as an insertion-ordered
association list of attribute name / value pairs. -/
abbrev Dataset := List (String × Value)

/-- Python attribute assignment `setattr(ds, k, v)` / ordered-dict update:
replace the value of an existing key in place, otherwise append. -/
def setattr : Dataset → String → Value → Dataset
  | [], k, v => [(k, v)]
  | (a, b) :: rest, k, v =>
      if a = k then (k, v) :: rest else (a, b) :: setattr rest k v

/-- Python attribute read `getattr(ds, k, default)` as an optional lookup
on the ordered association list, first match wins. -/
def getattrD : Dataset → String → Option Value
  | [], _ => none
  | (a, b) :: rest, k => if a = k then some b else getattrD rest k

theorem lookup_setattr_self (ds : Dataset) (k : String) (v : Value) :
    getattrD (setattr ds k v) k = some v := by
  induction ds with
  | nil => simp [setattr, getattrD]
  | cons p rest ih =>
      obtain ⟨a, b⟩ := p
      by_cases hak : a = k
      · simp [setattr, hak, getattrD]
      · simpa [setattr, hak, getattrD] using ih

theorem lookup_setattr_ne (ds : Dataset) (j k : String) (v : Value)
    (hjk : j ≠ k) : getattrD (setattr ds j v) k = getattrD ds k := by
  induction ds with
  | nil => simp [setattr, getattrD, hjk]
  | cons p rest ih =>
      obtain ⟨a, b⟩ := p
      by_cases haj : a = j
      · subst haj
        simp [setattr, getattrD, hjk]
      · by_cases hak : a = k
        · subst hak
          simp [setattr, haj, getattrD]
        · simpa [setattr, haj, getattrD, hak] using ih

/-- Applying a list of key/value pairs in order, as the Python loop
`for key, value in metadata.items(): setattr(ds, key, value)`. -/
def applyMetadata (ds : Dataset) (md : List (String × Value)) : Dataset :=
  md.foldl (fun d kv => setattr d kv.1 kv.2) ds

theorem lookup_applyMetadata_not_mem (md : List (String × Value))
    (ds : Dataset) (k : String) (hk : k ∉ md.map Prod.fst) :
    getattrD (applyMetadata ds md) k = getattrD ds k := by
  induction md generalizing ds with
  | nil => rfl
  | cons kv rest ih =>
      obtain ⟨a, v⟩ := kv
      have hak : a ≠ k := by
        intro h
        exact hk (by simp [h])
      have hrest : k ∉ rest.map Prod.fst := by
        intro h
        exact hk (by simp [h])
      calc getattrD (applyMetadata (setattr ds a v) rest) k
          = getattrD (setattr ds a v) k := ih _ hrest
        _ = getattrD ds k := lookup_setattr_ne ds a k v hak

theorem lookup_applyMetadata_mem (md : List (String × Value))
    (ds : Dataset) (k : String) (v : Value)
    (hnd : (md.map Prod.fst).Nodup) (hmem : (k, v) ∈ md) :
    getattrD (applyMetadata ds md) k = some v := by
  induction md generalizing ds with
  | nil => cases hmem
  | cons kv rest ih =>
      obtain ⟨a, w⟩ := kv
      have hnd2 : (rest.map Prod.fst).Nodup := (List.nodup_cons.mp hnd).2
      rcases List.mem_cons.mp hmem with heq | hrest
      · injection heq with h1 h2
        subst h1
        subst h2
        have hknotin : k ∉ rest.map Prod.fst := (List.nodup_cons.mp hnd).1
        calc getattrD (applyMetadata (setattr ds k v) rest) k
            = getattrD (setattr ds k v) k :=
              lookup_applyMetadata_not_mem rest _ k hknotin
          _ = some v := lookup_setattr_self ds k v
      · exact ih _ hnd2 hrest

/-! ## Signature validation (C1) -/

/-- The four ASCII bytes of the magic value `DICM`. -/
def dicmMagic : List Nat := [68, 73, 67, 77]

/-- Modelled from the spec: §4.1 SignatureValidator, §6 container
signature check — the validator missing from src/ (invoked through
`pydicom.dcmread` with `force=False` in `DicomEngine.import_dicom`)
opens the file, seeks to byte offset 128, reads at most 4 bytes (a short
read at end of file returns fewer), and accepts exactly when the bytes
read are the 4-byte magic value `DICM`. -/
def isValidContainer (file : List Nat) : Bool :=
  decide ((file.drop 128).take 4 = dicmMagic)

theorem take_drop_eq_magic (file : List Nat) :
    (file.drop 128).take 4 = dicmMagic ↔
      (file[128]? = some 68 ∧ file[129]? = some 73 ∧
       file[130]? = some 67 ∧ file[131]? = some 77) := by
  constructor
  · intro h
    have h0 : ((file.drop 128).take 4)[0]? = some 68 := by rw [h]; rfl
    have h1 : ((file.drop 128).take 4)[1]? = some 73 := by rw [h]; rfl
    have h2 : ((file.drop 128).take 4)[2]? = some 67 := by rw [h]; rfl
    have h3 : ((file.drop 128).take 4)[3]? = some 77 := by rw [h]; rfl
    rw [List.getElem?_take_of_lt (by omega), List.getElem?_drop] at h0 h1 h2 h3
    exact ⟨h0, h1, h2, h3⟩
  · rintro ⟨h0, h1, h2, h3⟩
    have hlen : 132 ≤ file.length := by
      rcases List.getElem?_eq_some_iff.mp h3 with ⟨hl, _⟩
      omega
    apply List.ext_getElem?
    intro n
    match n with
    | 0 => rw [List.getElem?_take_of_lt (by omega), List.getElem?_drop]; exact h0
    | 1 => rw [List.getElem?_take_of_lt (by omega), List.getElem?_drop]; exact h1
    | 2 => rw [List.getElem?_take_of_lt (by omega), List.getElem?_drop]; exact h2
    | 3 => rw [List.getElem?_take_of_lt (by omega), List.getElem?_drop]; exact h3
    | (m + 4) =>
        have hL : ((file.drop 128).take 4).length = 4 := by
          simp [List.length_take, List.length_drop]
          omega
        have hnone : ((file.drop 128).take 4)[m + 4]? = none :=
          List.getElem?_eq_none (by omega)
        have hnone2 : (dicmMagic)[m + 4]? = none :=
          List.getElem?_eq_none (by simp [dicmMagic])
        rw [hnone, hnone2]

/-- C1: for every file of length at least 132 bytes the signature
validation accepts exactly when bytes 128..131 are the ASCII bytes of
`DICM`; every file shorter than 132 bytes is rejected. -/
theorem c1_isValidContainer_signature (file : List Nat) :
    (132 ≤ file.length →
      (isValidContainer file = true ↔
        (file[128]? = some 68 ∧ file[129]? = some 73 ∧
         file[130]? = some 67 ∧ file[131]? = some 77))) ∧
    (file.length < 132 → isValidContainer file = false) := by
  constructor
  · intro _
    rw [isValidContainer, decide_eq_true_iff]
    exact take_drop_eq_magic file
  · intro hshort
    rw [isValidContainer, decide_eq_false_iff_not]
    intro h
    have := (take_drop_eq_magic file).mp h
    rcases List.getElem?_eq_some_iff.mp this.2.2.2 with ⟨hl, _⟩
    omega

/-- A concrete 132-byte file accepted by the validator: 128 zero bytes
followed by the `DICM` magic. -/
def sampleDicomFile : List Nat := List.replicate 128 0 ++ dicmMagic

set_option maxRecDepth 4000 in
/-- Witness for C1 at the concrete file `sampleDicomFile`. -/
theorem c1_witness :
    isValidContainer sampleDicomFile = true :=
  ((c1_isValidContainer_signature sampleDicomFile).1 (by decide)).mpr
    ⟨by decide, by decide, by decide, by decide⟩

/-! ## Caching pass (C2) and cache lifecycle (C6) -/

/-- A directory in the source tree: its regular files (as byte contents)
and its subdirectories, at arbitrary nesting depth. -/
inductive FsTree where
  | node (files : List (List Nat)) (subdirs : List FsTree)

mutual
/-- Modelled from the spec: §4.2 pass 1 — the full recursive walk of a
source tree collecting every regular file path in walk order. -/
def collectFiles : FsTree → List (List Nat)
  | .node files subs => files ++ collectForest subs
/-- Walk of a list of sibling subdirectories, in order. -/
def collectForest : List FsTree → List (List Nat)
  | [] => []
  | t :: ts => collectFiles t ++ collectForest ts
end

/-- One caching session: the staging directory (present while it exists,
with the contents of its files) and the in-memory staged-file list. -/
structure StagingState where
  stagingDir : Option (List (List Nat))
  staged : List (List Nat)
deriving DecidableEq

/-- The state before any caching pass: no staging directory, empty list. -/
def emptySession : StagingState := { stagingDir := none, staged := [] }

/-- Modelled from the spec: §4.2 CacheStager `cache_files` — walk the
tree (pass 1, establishing the total count), then validate each collected
file with the signature check and copy the matching ones, preserving
content and order, into the staging directory (pass 2).  Returns the pair
(cachedCount, totalCount) and the resulting session. -/
def cache_files (t : FsTree) : (Nat × Nat) × StagingState :=
  let all := collectFiles t
  let staged := all.filter (fun f => isValidContainer f)
  ((staged.length, all.length), { stagingDir := some staged, staged := staged })

/-- C2: a tree with N valid container files and M non-matching files, at
any nesting depth, caches as the pair (N, N+M); the staged list has
length N and every staged file independently passes the signature
check. -/
theorem c2_cache_counts (t : FsTree) :
    (cache_files t).1 =
      ((collectFiles t).countP (fun f => isValidContainer f),
       (collectFiles t).countP (fun f => isValidContainer f) +
         (collectFiles t).countP (fun f => ¬ isValidContainer f)) ∧
    (cache_files t).2.staged.length =
      (collectFiles t).countP (fun f => isValidContainer f) ∧
    (∀ f ∈ (cache_files t).2.staged, isValidContainer f = true) := by
  refine ⟨?_, ?_, ?_⟩
  · have hsplit := List.length_eq_countP_add_countP
      (p := fun f => isValidContainer f) (l := collectFiles t)
    have hfil := List.countP_eq_length_filter
      (p := fun f => isValidContainer f) (l := collectFiles t)
    simp only [cache_files]
    rw [← hfil, ← hsplit]
  · simp only [cache_files]
    exact (List.countP_eq_length_filter _ _).symm
  · intro f hf
    simp only [cache_files] at hf
    exact (List.mem_filter.mp hf).2

/-- Modelled from the spec: §4.5 CacheLifecycle `cleanup` — remove the
staging directory and its contents if it exists and clear the in-memory
staged-file list; total on every state, so a call with no active session
raises nothing. -/
def cleanup (_s : StagingState) : StagingState :=
  { stagingDir := none, staged := [] }

/-- C6: cleanup removes the staging directory left by a cache pass and
clears the staged list; it is a no-op on an inactive session and running
it twice equals running it once (cleanup is idempotent). -/
theorem c6_cleanup_idempotent (t : FsTree) (s : StagingState) :
    (cleanup (cache_files t).2).stagingDir = none ∧
    (cleanup (cache_files t).2).staged = [] ∧
    cleanup emptySession = emptySession ∧
    cleanup (cleanup s) = cleanup s := by
  refine ⟨rfl, rfl, rfl, rfl⟩

/-! ## Folder export (C5) -/

/-- Modelled from the spec: §4.3 FolderExporter `send_to_folder` — iterate
the staged files in their sequential order, copying each into the
destination directory under a fresh name; return the copied count
together with the destination directory contents. -/
def send_to_folder (dest : List (List Nat)) (staged : List (List Nat)) :
    Nat × List (List Nat) :=
  staged.foldl (fun acc f => (acc.1 + 1, acc.2 ++ [f])) (0, dest)

theorem send_to_folder_spec (dest staged : List (List Nat)) :
    send_to_folder dest staged = (staged.length, dest ++ staged) := by
  induction staged generalizing dest with
  | nil => simp [send_to_folder]
  | cons f rest ih =>
      have step : send_to_folder dest (f :: rest) =
          rest.foldl (fun acc g => (acc.1 + 1, acc.2 ++ [g])) (1, dest ++ [f]) := rfl
      have shift : ∀ (l : List (List Nat)) (n : Nat) (d : List (List Nat)),
          l.foldl (fun acc g => (acc.1 + 1, acc.2 ++ [g])) (n + 1, d) =
            ((l.foldl (fun acc g => (acc.1 + 1, acc.2 ++ [g])) (n, d)).1 + 1,
             (l.foldl (fun acc g => (acc.1 + 1, acc.2 ++ [g])) (n, d)).2) := by
        intro l
        induction l with
        | nil => intro n d; rfl
        | cons g gs ihg => intro n d; simpa using ihg (n + 1) (d ++ [g])
      have ihd := ih (dest ++ [f])
      have : send_to_folder (dest ++ [f]) rest = (rest.length, dest ++ [f] ++ rest) := ihd
      simp only [send_to_folder] at this
      rw [step, shift rest 0 (dest ++ [f]), this]
      simp

/-- C5: exporting a staged list with K entries produces exactly K new
files in the destination directory, each new file passing the signature
check whenever the staged files do (as the caching pass guarantees); an
empty staged list yields 0 copies. -/
theorem c5_send_to_folder (dest staged : List (List Nat)) :
    (send_to_folder dest staged).1 = staged.length ∧
    (send_to_folder dest staged).2.length = dest.length + staged.length ∧
    (send_to_folder dest staged).2.drop dest.length = staged ∧
    ((∀ f ∈ staged, isValidContainer f = true) →
      ∀ f ∈ (send_to_folder dest staged).2.drop dest.length,
        isValidContainer f = true) ∧
    (send_to_folder dest []).1 = 0 := by
  have h := send_to_folder_spec dest staged
  refine ⟨?_, ?_, ?_, ?_, rfl⟩
  · rw [h]
  · rw [h]; simp
  · rw [h]; simp
  · intro hvalid f hf
    rw [h] at hf
    simp at hf
    exact hvalid f hf

/-- Witness for C5: a concrete export of one staged valid file into an
empty destination directory. -/
theorem c5_witness :
    (send_to_folder [] [sampleDicomFile]).1 = 1 ∧
    ∀ f ∈ (send_to_folder [] [sampleDicomFile]).2.drop 0,
      isValidContainer f = true := by
  have h := c5_send_to_folder [] [sampleDicomFile]
  refine ⟨h.1, h.2.2.2.1 ?_⟩
  intro f hf
  have : f = sampleDicomFile := by simpa using hf
  rw [this]
  exact c1_witness

/-! ## Network export (C7) -/

/-- Behaviour of the remote archive endpoint for one session: whether it
accepts the association negotiation, and the status it returns for a
store request of a given file (none models an absent response). -/
structure PacsRemote where
  acceptsAssociation : Bool
  storeStatus : List Nat → Option Nat

/-- The exact-match success sentinel for a store status (0x0000). -/
def successStatus : Nat := 0

/-- Result of one `send_to_pacs` call: files sent, store requests
attempted, and whether an established association was released. -/
structure PacsOutcome where
  sentCount : Nat
  storeAttempts : Nat
  released : Bool
deriving DecidableEq

/-- Modelled from the spec: §4.4 PacsExporter `send_to_pacs` — request an
association; on rejection return 0 sent without attempting any store; on
acceptance issue one store request per staged file in order, counting as
sent exactly the requests whose status equals the success sentinel, and
release the association. -/
def send_to_pacs (remote : PacsRemote) (staged : List (List Nat)) :
    PacsOutcome :=
  if remote.acceptsAssociation then
    { sentCount :=
        staged.countP (fun f => remote.storeStatus f == some successStatus),
      storeAttempts := staged.length,
      released := true }
  else
    { sentCount := 0, storeAttempts := 0, released := false }

/-- C7: when the remote rejects the association negotiation, the network
export returns 0 sent and performs zero store attempts, for every staged
list and every per-file status behaviour. -/
theorem c7_rejected_association (status : List Nat → Option Nat)
    (staged : List (List Nat)) :
    send_to_pacs { acceptsAssociation := false, storeStatus := status }
        staged =
      { sentCount := 0, storeAttempts := 0, released := false } := by
  rfl

/-! ## DicomEngine state and import (src/dicom_engine.py) -/

/-- State of one path in the filesystem seen by `import_dicom`: the path
is absent, exists but reading it raises (permission denied, a directory,
and similar), or exists with readable byte content. -/
inductive FileState where
  | missing
  | unreadable
  | content (b : List Nat)
deriving DecidableEq

/-- The exception `import_dicom` raises before its try block. -/
inductive ImportError where
  | fileNotFound
deriving DecidableEq

/-- Engine state of `DicomEngine.__init__`: the currently loaded dataset
and the extracted metadata dictionary. -/
structure DicomEngine where
  current_dicom : Option Dataset
  metadata : Dataset
deriving DecidableEq

/-- The freshly constructed engine: no loaded file, empty metadata. -/
def DicomEngine.init : DicomEngine := { current_dicom := none, metadata := [] }

/-- Python `str(v)` on an attribute value, as used by the metadata
extraction. -/
def strOfValue : Value → String
  | .str s => s
  | .nat n => toString n
  | .bytes _ => "bytes"
  | .null => "None"

/-- String-valued extraction step `str(getattr(ds, k, default))` of
`DicomEngine._extract_metadata`. -/
def extractStr (ds : Dataset) (k dflt : String) : Value :=
  match getattrD ds k with
  | some v => .str (strOfValue v)
  | none => .str dflt

/-- Translation of `DicomEngine._extract_metadata`: writes the eight
fixed keys into the metadata dictionary in source order, falling back to
the string Unknown, and to None for the two dimension keys. -/
def extract_metadata (ds : Dataset) (meta : Dataset) : Dataset :=
  let m := setattr meta "PatientName" (extractStr ds "PatientName" "Unknown")
  let m := setattr m "PatientID" (extractStr ds "PatientID" "Unknown")
  let m := setattr m "StudyDate" (extractStr ds "StudyDate" "Unknown")
  let m := setattr m "StudyDescription" (extractStr ds "StudyDescription" "Unknown")
  let m := setattr m "Modality" (extractStr ds "Modality" "Unknown")
  let m := setattr m "SeriesDescription" (extractStr ds "SeriesDescription" "Unknown")
  let m := setattr m "Rows" ((getattrD ds "Rows").getD .null)
  setattr m "Columns" ((getattrD ds "Columns").getD .null)

/-- Validating read `pydicom.dcmread(path, force=False)`: the read
succeeds only when the container signature is present; every other
outcome raises inside the try block of `import_dicom`. -/
def dcmread_ok (b : List Nat) : Bool :=
  isValidContainer b

/-- Translation of `DicomEngine.import_dicom`: raise FileNotFoundError
when the path does not exist; otherwise read the file inside a try
block, load the parsed dataset and extract metadata on success, and turn
every exception raised by the read into the return value False.  The
third-party parse of the raw bytes into a dataset is a parameter. -/
def import_dicom (parse : List Nat → Dataset) (fs : String → FileState)
    (st : DicomEngine) (p : String) : Except ImportError (Bool × DicomEngine) :=
  match fs p with
  | .missing => .error .fileNotFound
  | .unreadable => .ok (false, st)
  | .content b =>
      if dcmread_ok b then
        let ds := parse b
        .ok (true, { current_dicom := some ds,
                     metadata := extract_metadata ds st.metadata })
      else
        .ok (false, st)

/-- C3 counterexample: on a filesystem where every path is missing,
`import_dicom` raises FileNotFoundError to its caller instead of
returning a failure value, refuting the claim that the import operation
never raises for an I/O error. -/
theorem c3_counterexample :
    import_dicom (fun _ => []) (fun _ => FileState.missing)
        DicomEngine.init "scan.dcm" =
      Except.error ImportError.fileNotFound := by
  rfl

/-- C3 (amended): `import_dicom` treats every I/O failure of reading an
existing path (file too short, permission denied, not a regular file) as
not valid, returning False without raising and leaving the engine
unchanged; but for a path that does not exist it raises
FileNotFoundError, and those are the only possible outcomes. -/
theorem c3_import_error_handling (parse : List Nat → Dataset)
    (fs : String → FileState) (st : DicomEngine) (p : String) :
    (fs p = FileState.missing →
      import_dicom parse fs st p = .error .fileNotFound) ∧
    (fs p = FileState.unreadable →
      import_dicom parse fs st p = .ok (false, st)) ∧
    (∀ b, fs p = FileState.content b → isValidContainer b = false →
      import_dicom parse fs st p = .ok (false, st)) ∧
    (fs p ≠ FileState.missing →
      ∃ r, import_dicom parse fs st p = .ok r) := by
  refine ⟨?_, ?_, ?_, ?_⟩
  · intro h
    simp [import_dicom, h]
  · intro h
    simp [import_dicom, h]
  · intro b hb hvalid
    simp [import_dicom, hb, dcmread_ok, hvalid]
  · intro h
    cases hfs : fs p with
    | missing => exact absurd hfs h
    | unreadable => exact ⟨(false, st), by simp [import_dicom, hfs]⟩
    | content b =>
        by_cases hv : dcmread_ok b
        · refine ⟨(true, ⟨some (parse b), extract_metadata (parse b) st.metadata⟩), ?_⟩
          simp [import_dicom, hfs, hv]
        · exact ⟨(false, st), by simp [import_dicom, hfs, hv]⟩

/-- Witness for the amended C3 on a concrete filesystem holding one
unreadable path. -/
theorem c3_witness :
    import_dicom (fun _ => []) (fun _ => FileState.unreadable)
        DicomEngine.init "scan.dcm" =
      .ok (false, DicomEngine.init) :=
  (c3_import_error_handling (fun _ => []) (fun _ => FileState.unreadable)
      DicomEngine.init "scan.dcm").2.1 rfl

/-! ## Export (C4) -/

/-- The exception `export_dicom` raises before its try block. -/
inductive ExportError where
  | noDataset
deriving DecidableEq

/-- Whether the two filesystem operations inside the try block of
`export_dicom` succeed: creating the parent directories and saving the
dataset.  A false component models the corresponding OS error. -/
structure WriteEnv where
  mkdirOk : Bool
  saveOk : Bool
deriving DecidableEq

/-- Observable filesystem effects of one `export_dicom` call. -/
inductive FsEvent where
  | mkdirParents (p : String)
  | fileWritten (p : String)
deriving DecidableEq

/-- Translation of `DicomEngine.export_dicom`: export the provided
dataset, or the currently loaded one when none is provided; raise
ValueError when neither exists, before any filesystem effect; otherwise
create the parent directories and save the file inside a try block,
converting any failure there into the return value False. -/
def export_dicom (env : WriteEnv) (st : DicomEngine) (outPath : String)
    (dataset : Option Dataset) (log : List FsEvent) :
    (Except ExportError Bool) × List FsEvent :=
  let exportDataset := match dataset with
    | some d => some d
    | none => st.current_dicom
  match exportDataset with
  | none => (.error .noDataset, log)
  | some _ =>
      if env.mkdirOk then
        if env.saveOk then
          (.ok true, log ++ [.mkdirParents outPath, .fileWritten outPath])
        else
          (.ok false, log ++ [.mkdirParents outPath])
      else
        (.ok false, log)

/-- C4: `export_dicom` raises ValueError exactly when the provided
dataset is None and no file is loaded, and in that case it performs no
filesystem effect; in every other case it returns a boolean and never
propagates an exception, and any failure while creating directories or
writing the file yields the return value False. -/
theorem c4_export_dicom (env : WriteEnv) (st : DicomEngine)
    (outPath : String) (dataset : Option Dataset) (log : List FsEvent) :
    ((export_dicom env st outPath dataset log).1 = .error .noDataset ↔
      (dataset = none ∧ st.current_dicom = none)) ∧
    ((dataset = none ∧ st.current_dicom = none) →
      (export_dicom env st outPath dataset log).2 = log) ∧
    (¬(dataset = none ∧ st.current_dicom = none) →
      ∃ b, (export_dicom env st outPath dataset log).1 = .ok b) ∧
    (¬(dataset = none ∧ st.current_dicom = none) →
      (env.mkdirOk = false ∨ env.saveOk = false) →
      (export_dicom env st outPath dataset log).1 = .ok false) := by
  obtain ⟨mk, sv⟩ := env
  cases dataset with
  | some d =>
      refine ⟨?_, ?_, ?_, ?_⟩
      · constructor
        · intro h
          cases mk <;> cases sv <;> simp [export_dicom] at h
        · rintro ⟨h, _⟩
          cases h
      · rintro ⟨h, _⟩
        cases h
      · intro _
        cases mk with
        | false => exact ⟨false, by simp [export_dicom]⟩
        | true =>
            cases sv with
            | false => exact ⟨false, by simp [export_dicom]⟩
            | true => exact ⟨true, by simp [export_dicom]⟩
      · intro _ hfail
        cases mk with
        | false => simp [export_dicom]
        | true =>
            cases sv with
            | false => simp [export_dicom]
            | true => rcases hfail with h | h <;> cases h
  | none =>
      cases hcd : st.current_dicom with
      | none =>
          refine ⟨?_, ?_, ?_, ?_⟩
          · simp [export_dicom, hcd]
          · intro _
            simp [export_dicom, hcd]
          · intro h
            exact absurd ⟨rfl, rfl⟩ h
          · intro h
            exact absurd ⟨rfl, rfl⟩ h
      | some d =>
          refine ⟨?_, ?_, ?_, ?_⟩
          · constructor
            · intro h
              cases mk <;> cases sv <;> simp [export_dicom, hcd] at h
            · rintro ⟨_, h⟩
              cases h
          · rintro ⟨_, h⟩
            cases h
          · intro _
            cases mk with
            | false => exact ⟨false, by simp [export_dicom, hcd]⟩
            | true =>
                cases sv with
                | false => exact ⟨false, by simp [export_dicom, hcd]⟩
                | true => exact ⟨true, by simp [export_dicom, hcd]⟩
          · intro _ hfail
            cases mk with
            | false => simp [export_dicom, hcd]
            | true =>
                cases sv with
                | false => simp [export_dicom, hcd]
                | true => rcases hfail with h | h <;> cases h

/-- Witness for C4: a concrete engine with no loaded file and no provided
dataset raises with zero filesystem effect, and a concrete failing save
returns False. -/
theorem c4_witness :
    (export_dicom ⟨true, true⟩ DicomEngine.init "out.dcm" none []).1 =
        .error .noDataset ∧
    (export_dicom ⟨true, true⟩ DicomEngine.init "out.dcm" none []).2 = [] ∧
    (export_dicom ⟨true, false⟩ DicomEngine.init "out.dcm" (some []) []).1 =
        .ok false := by
  refine ⟨?_, ?_, ?_⟩
  · exact (c4_export_dicom ⟨true, true⟩ DicomEngine.init "out.dcm" none []).1.mpr
      ⟨rfl, rfl⟩
  · exact (c4_export_dicom ⟨true, true⟩ DicomEngine.init "out.dcm" none []).2.1
      ⟨rfl, rfl⟩
  · exact (c4_export_dicom ⟨true, false⟩ DicomEngine.init "out.dcm" (some []) []).2.2.2
      (by simp) (Or.inr rfl)

/-! ## Query operations and the fresh engine (C8) -/

/-- Translation of `DicomEngine.get_metadata`: returns a copy of the
metadata dictionary (value copy of the entries). -/
def get_metadata (st : DicomEngine) : Dataset :=
  st.metadata

/-- Reading `ds.pixel_array` of a loaded dataset: the raw pixel bytes
when the PixelData attribute holds bytes, otherwise a caught failure. -/
def pixel_array_of (ds : Dataset) : Option (List Nat) :=
  match getattrD ds "PixelData" with
  | some (.bytes b) => some b
  | _ => none

/-- Translation of `DicomEngine.get_pixel_data`: None when no file is
loaded; otherwise the pixel array, with every extraction failure caught
and turned into None. -/
def get_pixel_data (st : DicomEngine) : Option (List Nat) :=
  match st.current_dicom with
  | none => none
  | some ds => pixel_array_of ds

/-- Translation of `DicomEngine.list_all_tags`: the empty list when no
file is loaded, otherwise the keywords of the data elements that have a
nonempty keyword. -/
def list_all_tags (st : DicomEngine) : List String :=
  match st.current_dicom with
  | none => []
  | some ds => (ds.map Prod.fst).filter (fun k => k ≠ "")

/-- A sequence of `import_dicom` calls as a caller observes the engine:
a call that raises leaves the engine object unchanged, a call that
returns replaces the state by the returned one. -/
def run_imports (parse : List Nat → Dataset) (fs : String → FileState)
    (paths : List String) : DicomEngine :=
  paths.foldl
    (fun st p =>
      match import_dicom parse fs st p with
      | .error _ => st
      | .ok (_, st2) => st2)
    DicomEngine.init

theorem run_imports_all_fail (parse : List Nat → Dataset)
    (fs : String → FileState) (paths : List String)
    (hfail : ∀ p ∈ paths, ∀ b, fs p = FileState.content b →
      isValidContainer b = false) :
    run_imports parse fs paths = DicomEngine.init := by
  have step : ∀ (st : DicomEngine) (p : String),
      (∀ b, fs p = FileState.content b → isValidContainer b = false) →
      (match import_dicom parse fs st p with
        | .error _ => st
        | .ok (_, st2) => st2) = st := by
    intro st p hp
    cases hfs : fs p with
    | missing => simp [import_dicom, hfs]
    | unreadable => simp [import_dicom, hfs]
    | content b =>
        have hv : isValidContainer b = false := hp b hfs
        simp [import_dicom, hfs, dcmread_ok, hv]
  rw [run_imports]
  induction paths with
  | nil => rfl
  | cons p rest ih =>
      have hp : ∀ b, fs p = FileState.content b → isValidContainer b = false :=
        hfail p (List.mem_cons_self p rest) 
      have hrest : ∀ q ∈ rest, ∀ b, fs q = FileState.content b →
          isValidContainer b = false :=
        fun q hq => hfail q (List.mem_cons_of_mem p hq)
      simpa [List.foldl_cons, step DicomEngine.init p hp] using ih hrest

/-- C8: on a freshly constructed engine, and after any sequence of
imports none of which succeeded, every query operation is total and
returns its empty default: the metadata dictionary is empty, the pixel
data is None and the tag list is empty. -/
theorem c8_fresh_engine_defaults (parse : List Nat → Dataset)
    (fs : String → FileState) (paths : List String)
    (hfail : ∀ p ∈ paths, ∀ b, fs p = FileState.content b →
      isValidContainer b = false) :
    get_metadata (run_imports parse fs paths) = [] ∧
    get_pixel_data (run_imports parse fs paths) = none ∧
    list_all_tags (run_imports parse fs paths) = [] := by
  rw [run_imports_all_fail parse fs paths hfail]
  exact ⟨rfl, rfl, rfl⟩

/-- Witness for C8 on a concrete filesystem: one missing path, one
unreadable path and one path whose content fails the signature check. -/
theorem c8_witness :
    get_metadata (run_imports (fun _ => [])
      (fun p => if p = "a.dcm" then FileState.missing
        else if p = "b.dcm" then FileState.unreadable
        else FileState.content [0, 1, 2])
      ["a.dcm", "b.dcm", "c.dcm"]) = [] := by
  refine (c8_fresh_engine_defaults _ _ _ ?_).1
  intro p hp b hb
  fin_cases hp
  all_goals simp at hb
  rw [← hb]
  rfl

/-! ## Creating a dataset from a pixel array (C9) -/

/-- A numpy array of 16-bit unsigned pixels: its shape and its elements
in row-major order. -/
structure NDArray where
  shape : List Nat
  data : List Nat
deriving DecidableEq

/-- Serialization `pixel_array.tobytes()` of a uint16 array: each element
as two little-endian bytes, in row-major order. -/
def NDArray.tobytes (arr : NDArray) : List Nat :=
  arr.data.flatMap (fun p => [p % 256, (p / 256) % 256])

/-- Translation of `DicomEngine.create_dicom_from_array`: set the three
identity defaults, set Rows and Columns from the shape when the array is
2-dimensional or 3-dimensional, set the six pixel-property defaults,
apply the caller metadata entries in order, and finally set PixelData to
the serialized array. -/
def create_dicom_from_array (arr : NDArray)
    (metadata : List (String × Value)) : Dataset :=
  let ds := setattr [] "PatientName" (.str "Anonymous")
  let ds := setattr ds "PatientID" (.str "00000000")
  let ds := setattr ds "Modality" (.str "OT")
  let ds := match arr.shape with
    | [r, c] => setattr (setattr ds "Rows" (.nat r)) "Columns" (.nat c)
    | [_, r, c] => setattr (setattr ds "Rows" (.nat r)) "Columns" (.nat c)
    | _ => ds
  let ds := setattr ds "SamplesPerPixel" (.nat 1)
  let ds := setattr ds "PhotometricInterpretation" (.str "MONOCHROME2")
  let ds := setattr ds "BitsAllocated" (.nat 16)
  let ds := setattr ds "BitsStored" (.nat 16)
  let ds := setattr ds "HighBit" (.nat 15)
  let ds := setattr ds "PixelRepresentation" (.nat 0)
  let ds := applyMetadata ds metadata
  setattr ds "PixelData" (.bytes arr.tobytes)

/-- The dataset built by `create_dicom_from_array` for a 2-dimensional
shape, before the metadata overrides and the final PixelData write. -/
def createBase (r c : Nat) : Dataset :=
  [("PatientName", Value.str "Anonymous"),
   ("PatientID", Value.str "00000000"),
   ("Modality", Value.str "OT"),
   ("Rows", Value.nat r),
   ("Columns", Value.nat c),
   ("SamplesPerPixel", Value.nat 1),
   ("PhotometricInterpretation", Value.str "MONOCHROME2"),
   ("BitsAllocated", Value.nat 16),
   ("BitsStored", Value.nat 16),
   ("HighBit", Value.nat 15),
   ("PixelRepresentation", Value.nat 0)]

theorem create_dicom_eq (arr : NDArray) (md : List (String × Value))
    (r c : Nat) (hshape : arr.shape = [r, c]) :
    create_dicom_from_array arr md =
      setattr (applyMetadata (createBase r c) md) "PixelData"
        (.bytes arr.tobytes) := by
  simp only [create_dicom_from_array, hshape]
  rfl

set_option maxRecDepth 2000 in
/-- C9 counterexample: on the 2×2 zero array with metadata
`{"Rows": 7}`, the returned dataset carries Rows = 7, not the first
component 2 of the array shape, because the source applies the metadata
overrides after writing Rows and Columns. -/
theorem c9_counterexample :
    getattrD (create_dicom_from_array ⟨[2, 2], [0, 0, 0, 0]⟩
        [("Rows", Value.nat 7)]) "Rows" = some (Value.nat 7) ∧
    some (Value.nat 7) ≠ some (Value.nat 2) := by
  exact ⟨by decide, by decide⟩

/-- C9 (amended): for a 2-dimensional array, the returned dataset always
carries PixelData = the serialized array, even when the metadata supplies
a PixelData entry; Rows and Columns equal the array shape except where a
metadata entry overrides them; the identity defaults Anonymous, 00000000
and OT hold except where overridden; and every supplied metadata pair
with a key other than PixelData is present on the result. -/
theorem c9_create_dicom_from_array (arr : NDArray)
    (md : List (String × Value)) (r c : Nat)
    (hshape : arr.shape = [r, c]) (hnd : (md.map Prod.fst).Nodup) :
    getattrD (create_dicom_from_array arr md) "PixelData" =
        some (.bytes arr.tobytes) ∧
    ("Rows" ∉ md.map Prod.fst →
      getattrD (create_dicom_from_array arr md) "Rows" = some (.nat r)) ∧
    ("Columns" ∉ md.map Prod.fst →
      getattrD (create_dicom_from_array arr md) "Columns" = some (.nat c)) ∧
    ("PatientName" ∉ md.map Prod.fst →
      getattrD (create_dicom_from_array arr md) "PatientName" =
        some (.str "Anonymous")) ∧
    ("PatientID" ∉ md.map Prod.fst →
      getattrD (create_dicom_from_array arr md) "PatientID" =
        some (.str "00000000")) ∧
    ("Modality" ∉ md.map Prod.fst →
      getattrD (create_dicom_from_array arr md) "Modality" =
        some (.str "OT")) ∧
    (∀ k v, (k, v) ∈ md → k ≠ "PixelData" →
      getattrD (create_dicom_from_array arr md) k = some v) := by
  rw [create_dicom_eq arr md r c hshape]
  refine ⟨lookup_setattr_self _ _ _, ?_, ?_, ?_, ?_, ?_, ?_⟩
  · intro hnot
    rw [lookup_setattr_ne _ _ _ _ (by decide),
        lookup_applyMetadata_not_mem md _ _ hnot]
    rfl
  · intro hnot
    rw [lookup_setattr_ne _ _ _ _ (by decide),
        lookup_applyMetadata_not_mem md _ _ hnot]
    rfl
  · intro hnot
    rw [lookup_setattr_ne _ _ _ _ (by decide),
        lookup_applyMetadata_not_mem md _ _ hnot]
    rfl
  · intro hnot
    rw [lookup_setattr_ne _ _ _ _ (by decide),
        lookup_applyMetadata_not_mem md _ _ hnot]
    rfl
  · intro hnot
    rw [lookup_setattr_ne _ _ _ _ (by decide),
        lookup_applyMetadata_not_mem md _ _ hnot]
    rfl
  · intro k v hkv hk
    rw [lookup_setattr_ne _ _ _ _ (Ne.symm hk),
        lookup_applyMetadata_mem md _ _ _ hnd hkv]

set_option maxRecDepth 2000 in
/-- Witness for the amended C9: a concrete 1×2 array with one metadata
override of the patient name. -/
theorem c9_witness :
    getattrD (create_dicom_from_array ⟨[1, 2], [5, 6]⟩
        [("PatientName", Value.str "Test")]) "PixelData" =
      some (.bytes [5, 0, 6, 0]) ∧
    getattrD (create_dicom_from_array ⟨[1, 2], [5, 6]⟩
        [("PatientName", Value.str "Test")]) "Rows" = some (.nat 1) ∧
    getattrD (create_dicom_from_array ⟨[1, 2], [5, 6]⟩
        [("PatientName", Value.str "Test")]) "PatientName" =
      some (.str "Test") := by
  have h := c9_create_dicom_from_array ⟨[1, 2], [5, 6]⟩
    [("PatientName", Value.str "Test")] 1 2 rfl (by decide)
  refine ⟨h.1, h.2.1 (by decide), ?_⟩
  exact h.2.2.2.2.2.2 "PatientName" (Value.str "Test") (by decide) (by decide)

/-! ## Defensive copy of the metadata dictionary (C10) -/

/-- A heap of dictionary objects; a reference is an index into it.  The
engine field `metadata` holds one such reference, so Python aliasing is
observable: mutating through one reference changes the cell every alias
sees. -/
abbrev Heap := List Dataset

/-- In-place mutation `d[k] = v` of the dictionary object behind a
reference. -/
def dictSet (h : Heap) (r : Nat) (k : String) (v : Value) : Heap :=
  h.set r (setattr (h.getD r []) k v)

/-- Heap-level translation of `DicomEngine.get_metadata`: allocate a new
dictionary object holding a copy of the entries of the engine metadata
object (`self.metadata.copy()`) and return a reference to it. -/
def get_metadata_ref (h : Heap) (engineRef : Nat) : Heap × Nat :=
  (h ++ [h.getD engineRef []], h.length)

theorem getD_append_left (h : Heap) (x : Dataset) (r : Nat)
    (hr : r < h.length) : (h ++ [x]).getD r [] = h.getD r [] := by
  simp only [List.getD_eq_getElem?_getD]
  rw [List.getElem?_append_left hr]

/-- C10: `get_metadata` returns a defensive copy — the returned reference
is a fresh object distinct from the engine metadata object; mutating the
returned dictionary leaves the engine metadata object unchanged; and two
successive calls with no intervening import return dictionaries with
equal contents, both equal to the engine metadata. -/
theorem c10_get_metadata_copy (h : Heap) (engineRef : Nat) (k : String)
    (v : Value) (hr : engineRef < h.length) :
    (get_metadata_ref h engineRef).2 ≠ engineRef ∧
    (dictSet (get_metadata_ref h engineRef).1
        (get_metadata_ref h engineRef).2 k v).getD engineRef [] =
      h.getD engineRef [] ∧
    (get_metadata_ref h engineRef).1.getD
        (get_metadata_ref h engineRef).2 [] =
      h.getD engineRef [] ∧
    (get_metadata_ref (dictSet (get_metadata_ref h engineRef).1
          (get_metadata_ref h engineRef).2 k v) engineRef).1.getD
        (get_metadata_ref (dictSet (get_metadata_ref h engineRef).1
          (get_metadata_ref h engineRef).2 k v) engineRef).2 [] =
      h.getD engineRef [] := by
  have hne : h.length ≠ engineRef := by omega
  have hcell : (h ++ [h.getD engineRef []]).getD engineRef [] =
      h.getD engineRef [] := getD_append_left h _ engineRef hr
  have hmut : (dictSet (h ++ [h.getD engineRef []]) h.length k v).getD
      engineRef [] = h.getD engineRef [] := by
    rw [dictSet]
    simp only [List.getD_eq_getElem?_getD]
    rw [List.getElem?_set_ne hne]
    simpa [List.getD_eq_getElem?_getD] using hcell
  refine ⟨hne, hmut, ?_, ?_⟩
  · simp only [get_metadata_ref, List.getD_eq_getElem?_getD]
    rw [List.getElem?_append_right (Nat.le_refl _)]
    simp
  · simp only [get_metadata_ref]
    have hlen : engineRef <
        (dictSet (h ++ [h.getD engineRef []]) h.length k v).length := by
      simp [dictSet]
      omega
    rw [List.getD_eq_getElem?_getD,
        List.getElem?_append_right (Nat.le_refl _)]
    simpa [List.getD_eq_getElem?_getD] using hmut

/-- Witness for C10 on a concrete one-cell heap. -/
theorem c10_witness :
    (dictSet (get_metadata_ref [[("PatientName", Value.str "A")]] 0).1
        (get_metadata_ref [[("PatientName", Value.str "A")]] 0).2
        "PatientName" (Value.str "B")).getD 0 [] =
      [("PatientName", Value.str "A")] :=
  (c10_get_metadata_copy [[("PatientName", Value.str "A")]] 0
      "PatientName" (Value.str "B") (by decide)).2.1
